import Mathlib

/-!
Verification development for the SupaFund trader decision engine.

The definitions below are a shallow embedding of the Python sources:
`decision_maker_abci` (sampling, prediction, payloads, rounds) and
`market_manager_abci` (bet lifecycle).  Machine integers are modelled as
`Int`/`Nat`, Python floats as exact rationals (`Rat`; only comparisons are
performed on them in the embedded code), fallible code as `Option`/`Except`.
Python `list.sort(key=k, reverse=True)` is stable, so taking element `[0]`
of the sorted list returns the first element of the original list whose key
is maximal; that composite operation is embedded as `pickFirstMax`.
-/

/-- Modelled from the spec: the queue lifecycle states of a bet.  The
enumeration `QueueStatus` lives in `market_manager_abci/bets.py`, which is not
among the sources; the glossary lists exactly FRESH, TO_PROCESS and EXPIRED. -/
inductive QueueStatus where
  | FRESH
  | TO_PROCESS
  | EXPIRED
deriving DecidableEq

/-- Modelled from the spec: the bet record of `market_manager_abci/bets.py`
(not among the sources).  Market-facing fields per §3: opening timestamp,
normalized liquidity, token-pool balances, fee; agent-local bookkeeping:
`queue_no`, `processed_timestamp`, `n_bets`, `invested_amount`,
`queue_status`. -/
structure Bet where
  id : String
  openingTimestamp : Int
  scaledLiquidityMeasure : Rat
  fee : Rat
  tokenAmounts : List Int
  queue_no : Int
  processed_timestamp : Int
  n_bets : Nat
  invested_amount : Int
  queue_status : QueueStatus
deriving DecidableEq

/-- The skill parameters consumed by `SamplingBehaviour` (`self.params.…`). -/
structure SamplingParams where
  sample_bets_closing_days : Int
  opening_margin : Int
  safe_voting_range : Int
  rebet_chance : Rat

/-- `WEEKDAYS = 7` from `behaviours/sampling.py`. -/
def WEEKDAYS : Int := 7

/-- `UNIX_DAY = 60 * 60 * 24` from `behaviours/sampling.py`. -/
def UNIX_DAY : Int := 60 * 60 * 24

/-- `UNIX_WEEK = WEEKDAYS * UNIX_DAY` from `behaviours/sampling.py`. -/
def UNIX_WEEK : Int := WEEKDAYS * UNIX_DAY

/-- The process-wide liquidity cache (`shared_state.liquidity_cache`),
a mapping from bet id to the last observed liquidity. -/
def LiquidityCache : Type := List (String × Rat)

/-- `dict.get(bet.id, None)` on the liquidity cache. -/
def cache_get (cache : LiquidityCache) (i : String) : Option Rat :=
  match List.find? (fun p => decide (p.1 = i)) cache with
  | some p => some p.2
  | none => none

/-- `SamplingBehaviour.has_liquidity_changed`: the bet's liquidity differs
from the cached one (a missing cache entry, Python `None`, always differs). -/
def has_liquidity_changed (cache : LiquidityCache) (bet : Bet) : Bool :=
  match cache_get cache bet.id with
  | none => true
  | some previous => decide (bet.scaledLiquidityMeasure ≠ previous)

/-- `SamplingBehaviour.processable_bet`.  `now` is the synced timestamp and
`should_rebet` the flag computed in `setup`.  Python `//` is floor division,
embedded as `Int.fdiv`. -/
def processable_bet (p : SamplingParams) (now : Int) (should_rebet : Bool)
    (cache : LiquidityCache) (bet : Bet) : Bool :=
  let within_opening_range :=
    decide (bet.openingTimestamp ≤ now + p.sample_bets_closing_days * UNIX_DAY)
  let within_safe_range :=
    decide (now < bet.openingTimestamp - p.opening_margin - p.safe_voting_range)
  let within_ranges := within_opening_range && within_safe_range
  if Bool.xor should_rebet (decide (bet.n_bets ≠ 0)) then false
  else if !should_rebet then within_ranges && has_liquidity_changed cache bet
  else
    let lifetime := bet.openingTimestamp - now
    let t_rebetting := Int.fdiv lifetime UNIX_WEEK + UNIX_DAY
    let can_rebet := decide (bet.processed_timestamp + t_rebetting ≤ now)
    within_ranges && can_rebet

/-- One step of Python's "stable sort descending by key, take element 0":
keep the current best unless the candidate's key is strictly greater. -/
def pickStep {α K : Type} [LinearOrder K] (key : α → K) (best x : α) : α :=
  if key best < key x then x else best

/-- `l.sort(key=key, reverse=True); l[0]`: the first element of `l` whose key
is maximal (Python's sort is stable, also with `reverse=True`). -/
def pickFirstMax {α K : Type} [LinearOrder K] (key : α → K) : List α → Option α
  | [] => none
  | b :: bs => some (List.foldl (pickStep key) b bs)

/-- Python `min(list)` (callers in the source only apply it to non-empty
lists; the `[]` case is junk). -/
def pyMin : List Int → Int
  | [] => 0
  | x :: xs => List.foldl min x xs

/-- The sort key of the new-bets branch of `_sampled_bet_idx`:
`(scaledLiquidityMeasure, openingTimestamp)`, compared lexicographically. -/
def new_bet_key (b : Bet) : Rat ×ₗ Int :=
  toLex (b.scaledLiquidityMeasure, b.openingTimestamp)

/-- The sort key of the retry branch of `_sampled_bet_idx`:
`(invested_amount, -processed_timestamp, scaledLiquidityMeasure,
openingTimestamp)`, compared lexicographically. -/
def retry_bet_key (b : Bet) : Int ×ₗ (Int ×ₗ (Rat ×ₗ Int)) :=
  toLex (b.invested_amount,
    toLex (-b.processed_timestamp,
      toLex (b.scaledLiquidityMeasure, b.openingTimestamp)))

/-- `SamplingBehaviour._sampled_bet_idx(bets)`: `all_bets` is `self.bets`,
`bets` the processable ones.  Returns `self.bets.index(chosen)`, the index of
the first bet of `all_bets` equal to the chosen one.  The source only calls
this with `bets` non-empty; the `none`/`0` fallbacks are junk values for the
unreachable empty cases. -/
def sampled_bet_idx (all_bets bets : List Bet) : Nat :=
  let least_queue_number := pyMin (List.map (fun b => b.queue_no) bets)
  let priority_bets := List.filter (fun b => decide (b.queue_no = least_queue_number)) bets
  let new_in_priority_bets := List.filter (fun b => decide (b.processed_timestamp = 0)) bets
  match pickFirstMax new_bet_key new_in_priority_bets with
  | some chosen => List.indexOf chosen all_bets
  | none =>
    match pickFirstMax retry_bet_key priority_bets with
    | some chosen => List.indexOf chosen all_bets
    | none => 0

/-- `SamplingBehaviour._sample`: filter processable bets, choose by
`_sampled_bet_idx`, reject a zero-liquidity pick.  The liquidity-cache write
is a side effect that does not affect the returned index and is omitted. -/
def sample (p : SamplingParams) (now : Int) (should_rebet : Bool)
    (cache : LiquidityCache) (bets : List Bet) : Option Nat :=
  let available_bets := List.filter (processable_bet p now should_rebet cache) bets
  if available_bets.isEmpty then none
  else
    let idx := sampled_bet_idx bets available_bets
    match bets.get? idx with
    | none => none
    | some sampled_bet =>
      if sampled_bet.scaledLiquidityMeasure = 0 then none else some idx

/-- `SamplingBehaviour.setup`: rebetting is considered only if some bet has
been bet on before; then a PRNG seeded with the shared randomness draws one
uniform value.  The Mersenne-Twister draw is a deterministic function of the
seed and is taken here as the input `draw`; quantifying over `draw` covers
quantifying over the seed. -/
def compute_should_rebet (bets : List Bet) (draw rebet_chance : Rat) : Bool :=
  if List.any bets (fun b => decide (0 < b.n_bets)) then decide (draw ≤ rebet_chance)
  else false

/-- `select(now, randomness, rebet_chance)` of the spec, i.e. `setup`
followed by `_sample` on the registry snapshot. -/
def select (p : SamplingParams) (now : Int) (draw : Rat)
    (cache : LiquidityCache) (bets : List Bet) : Option Nat :=
  sample p now (compute_should_rebet bets draw p.rebet_chance) cache bets

theorem foldl_pickStep_mem {α K : Type} [LinearOrder K] (key : α → K) :
    ∀ (l : List α) (b : α),
      List.foldl (pickStep key) b l = b ∨ List.foldl (pickStep key) b l ∈ l := by
  intro l
  induction l with
  | nil => intro b; exact Or.inl rfl
  | cons c t ih =>
    intro b
    rcases ih (pickStep key b c) with h | h
    · by_cases hc : key b < key c
      · have hs : pickStep key b c = c := by simp [pickStep, hc]
        right
        rw [List.foldl_cons, h, hs]
        exact List.mem_cons_self c t
      · have hs : pickStep key b c = b := by simp [pickStep, hc]
        left
        rw [List.foldl_cons, h, hs]
    · right
      rw [List.foldl_cons]
      exact List.mem_cons_of_mem c h

theorem foldl_pickStep_le {α K : Type} [LinearOrder K] (key : α → K) :
    ∀ (l : List α) (b x : α), (x = b ∨ x ∈ l) →
      key x ≤ key (List.foldl (pickStep key) b l) := by
  intro l
  induction l with
  | nil =>
    intro b x hx
    rcases hx with h | h
    · subst h; exact le_refl _
    · cases h
  | cons c t ih =>
    intro b x hx
    have hb : key b ≤ key (pickStep key b c) := by
      by_cases hc : key b < key c
      · simp only [pickStep, if_pos hc]
        exact le_of_lt hc
      · simp [pickStep, hc]
    have hcle : key c ≤ key (pickStep key b c) := by
      by_cases hc : key b < key c
      · simp [pickStep, hc]
      · simp only [pickStep, if_neg hc]
        exact le_of_not_lt hc
    rw [List.foldl_cons]
    rcases hx with h | h
    · subst h
      exact le_trans hb (ih (pickStep key x c) _ (Or.inl rfl))
    · rcases List.mem_cons.mp h with h | h
      · subst h
        exact le_trans hcle (ih (pickStep key b x) _ (Or.inl rfl))
      · exact ih (pickStep key b c) x (Or.inr h)

theorem pickFirstMax_mem {α K : Type} [LinearOrder K] (key : α → K)
    {l : List α} {b : α} (h : pickFirstMax key l = some b) : b ∈ l := by
  cases l with
  | nil => simp [pickFirstMax] at h
  | cons c t =>
    simp only [pickFirstMax, Option.some.injEq] at h
    rcases foldl_pickStep_mem key t c with h2 | h2
    · rw [h] at h2
      rw [h2]
      exact List.mem_cons_self c t
    · rw [h] at h2
      exact List.mem_cons_of_mem c h2

theorem pickFirstMax_le {α K : Type} [LinearOrder K] (key : α → K)
    {l : List α} {b : α} (h : pickFirstMax key l = some b) :
    ∀ x ∈ l, key x ≤ key b := by
  cases l with
  | nil => simp [pickFirstMax] at h
  | cons c t =>
    simp only [pickFirstMax, Option.some.injEq] at h
    intro x hx
    rw [← h]
    rcases List.mem_cons.mp hx with h2 | h2
    · exact foldl_pickStep_le key t c x (Or.inl h2)
    · exact foldl_pickStep_le key t c x (Or.inr h2)

theorem pickFirstMax_ne_none {α K : Type} [LinearOrder K] (key : α → K)
    {l : List α} (h : l ≠ []) : ∃ b, pickFirstMax key l = some b := by
  cases l with
  | nil => exact absurd rfl h
  | cons c t => exact ⟨List.foldl (pickStep key) c t, rfl⟩

theorem pickFirstMax_eq_none {α K : Type} [LinearOrder K] (key : α → K)
    {l : List α} (h : pickFirstMax key l = none) : l = [] := by
  cases l with
  | nil => rfl
  | cons c t => simp [pickFirstMax] at h

theorem foldl_min_mem : ∀ (l : List Int) (x : Int),
    List.foldl min x l = x ∨ List.foldl min x l ∈ l := by
  intro l
  induction l with
  | nil => intro x; exact Or.inl rfl
  | cons c t ih =>
    intro x
    rcases ih (min x c) with h | h
    · by_cases hc : x ≤ c
      · left
        rw [List.foldl_cons, h, min_eq_left hc]
      · right
        rw [List.foldl_cons, h, min_eq_right (le_of_not_le hc)]
        exact List.mem_cons_self c t
    · right
      rw [List.foldl_cons]
      exact List.mem_cons_of_mem c h

theorem pyMin_mem {l : List Int} (h : l ≠ []) : pyMin l ∈ l := by
  cases l with
  | nil => exact absurd rfl h
  | cons x xs =>
    rcases foldl_min_mem xs x with h2 | h2
    · rw [pyMin, h2]
      exact List.mem_cons_self x xs
    · exact List.mem_cons_of_mem x h2

/-- The priority partition of a non-empty eligible list is non-empty: some
eligible bet attains the minimal queue number. -/
theorem priority_bets_ne_nil {available : List Bet} (h : available ≠ []) :
    List.filter
      (fun b => decide (b.queue_no = pyMin (List.map (fun b => b.queue_no) available)))
      available ≠ [] := by
  have hmap : List.map (fun b : Bet => b.queue_no) available ≠ [] := by
    intro hc
    exact h (List.map_eq_nil_iff.mp hc)
  have hmem := pyMin_mem hmap
  rcases List.mem_map.mp hmem with ⟨b, hb, hq⟩
  refine List.ne_nil_of_mem (a := b) ?_
  rw [List.mem_filter]
  exact ⟨hb, by simp [hq]⟩

theorem sampled_bet_idx_new_branch (all_bets bets : List Bet) {chosen : Bet}
    (h : pickFirstMax new_bet_key
      (List.filter (fun b => decide (b.processed_timestamp = 0)) bets) = some chosen) :
    sampled_bet_idx all_bets bets = List.indexOf chosen all_bets := by
  simp only [sampled_bet_idx, h]

theorem sampled_bet_idx_retry_branch (all_bets bets : List Bet) {chosen : Bet}
    (hnew : List.filter (fun b => decide (b.processed_timestamp = 0)) bets = [])
    (h : pickFirstMax retry_bet_key
      (List.filter (fun b => decide (b.queue_no = pyMin (List.map (fun b => b.queue_no) bets)))
        bets) = some chosen) :
    sampled_bet_idx all_bets bets = List.indexOf chosen all_bets := by
  simp only [sampled_bet_idx]
  rw [hnew, h]
  rfl

theorem get?_indexOf_of_mem {l : List Bet} {b : Bet} (h : b ∈ l) :
    l.get? (List.indexOf b l) = some b := by
  have hlt : List.indexOf b l < l.length := List.indexOf_lt_length.mpr h
  rw [List.get?_eq_getElem?, List.getElem?_eq_getElem hlt, List.getElem_indexOf]

/-- Full characterization of a successful `_sample`: the returned index points
at the first occurrence (in the registry) of a processable bet with non-zero
liquidity, picked by `_sampled_bet_idx` from the processable ones. -/
theorem sample_some_spec (p : SamplingParams) (now : Int) (sr : Bool)
    (cache : LiquidityCache) (bets : List Bet) {i : Nat}
    (h : sample p now sr cache bets = some i) :
    ∃ chosen, bets.get? i = some chosen ∧
      chosen ∈ List.filter (processable_bet p now sr cache) bets ∧
      chosen.scaledLiquidityMeasure ≠ 0 := by
  simp only [sample] at h
  by_cases hE : (List.filter (processable_bet p now sr cache) bets).isEmpty
  · rw [if_pos hE] at h
    exact absurd h (by simp)
  · rw [if_neg hE] at h
    have hne : List.filter (processable_bet p now sr cache) bets ≠ [] := by
      rw [← List.isEmpty_eq_false]
      exact Bool.eq_false_iff.mpr hE
    have hchosen : ∃ chosen,
        sampled_bet_idx bets (List.filter (processable_bet p now sr cache) bets) =
          List.indexOf chosen bets ∧
        chosen ∈ List.filter (processable_bet p now sr cache) bets := by
      rcases hPF : pickFirstMax new_bet_key
          (List.filter (fun b => decide (b.processed_timestamp = 0))
            (List.filter (processable_bet p now sr cache) bets)) with _ | c
      · have hnil := pickFirstMax_eq_none new_bet_key hPF
        have hpne := priority_bets_ne_nil hne
        rcases pickFirstMax_ne_none retry_bet_key hpne with ⟨c, hc⟩
        refine ⟨c, sampled_bet_idx_retry_branch bets _ hnil hc, ?_⟩
        exact List.mem_of_mem_filter (pickFirstMax_mem retry_bet_key hc)
      · refine ⟨c, sampled_bet_idx_new_branch bets _ hPF, ?_⟩
        exact List.mem_of_mem_filter (pickFirstMax_mem new_bet_key hPF)
    rcases hchosen with ⟨chosen, hidx, hmem⟩
    rw [hidx] at h
    have hget : bets.get? (List.indexOf chosen bets) = some chosen :=
      get?_indexOf_of_mem (List.mem_of_mem_filter hmem)
    rw [hget] at h
    change (if chosen.scaledLiquidityMeasure = 0 then none
      else some (List.indexOf chosen bets)) = some i at h
    by_cases hliq : chosen.scaledLiquidityMeasure = 0
    · rw [if_pos hliq] at h
      exact absurd h (by simp)
    · rw [if_neg hliq] at h
      have hi : i = List.indexOf chosen bets := (Option.some.inj h).symm
      exact ⟨chosen, hi ▸ hget, hmem, hliq⟩

/-- A bet that `processable_bet` accepts lies inside the safe voting range. -/
theorem processable_bet_safe_range {p : SamplingParams} {now : Int} {sr : Bool}
    {cache : LiquidityCache} {bet : Bet}
    (h : processable_bet p now sr cache bet = true) :
    now < bet.openingTimestamp - p.opening_margin - p.safe_voting_range := by
  simp only [processable_bet] at h
  split at h
  · exact absurd h (by simp)
  · split at h
    · simp only [Bool.and_eq_true, decide_eq_true_eq] at h
      exact h.1.2
    · simp only [Bool.and_eq_true, decide_eq_true_eq] at h
      exact h.1.2

/-- The processable bets of a registry snapshot (`available_bets` in
`_sample`), with the rebet flag computed from the shared randomness draw. -/
def available_bets (p : SamplingParams) (now : Int) (draw : Rat)
    (cache : LiquidityCache) (bets : List Bet) : List Bet :=
  List.filter (processable_bet p now (compute_should_rebet bets draw p.rebet_chance) cache) bets

/-- The never-processed processable bets (`new_in_priority_bets` in
`_sampled_bet_idx`, which filters all available bets, not only the priority
ones). -/
def new_available_bets (p : SamplingParams) (now : Int) (draw : Rat)
    (cache : LiquidityCache) (bets : List Bet) : List Bet :=
  List.filter (fun b => decide (b.processed_timestamp = 0))
    (available_bets p now draw cache bets)

/-- The processable bets at the minimal queue number (`priority_bets` in
`_sampled_bet_idx`). -/
def priority_available_bets (p : SamplingParams) (now : Int) (draw : Rat)
    (cache : LiquidityCache) (bets : List Bet) : List Bet :=
  List.filter
    (fun b => decide (b.queue_no =
      pyMin (List.map (fun b => b.queue_no) (available_bets p now draw cache bets))))
    (available_bets p now draw cache bets)

theorem sample_eq_of_choice (p : SamplingParams) (now : Int) (sr : Bool)
    (cache : LiquidityCache) (bets : List Bet) (chosen : Bet)
    (hidx : sampled_bet_idx bets (List.filter (processable_bet p now sr cache) bets) =
      List.indexOf chosen bets)
    (hmem : chosen ∈ List.filter (processable_bet p now sr cache) bets)
    (hliq : chosen.scaledLiquidityMeasure ≠ 0) :
    sample p now sr cache bets = some (List.indexOf chosen bets) := by
  have hne : (List.filter (processable_bet p now sr cache) bets).isEmpty = false := by
    rw [List.isEmpty_eq_false]
    exact List.ne_nil_of_mem hmem
  have hget := get?_indexOf_of_mem (List.mem_of_mem_filter hmem)
  simp only [sample, hne, hidx, hget, Bool.false_eq_true, if_false]
  rw [if_neg hliq]

/-- C2 (counterexample): the claim "for every registry snapshot, timestamp,
seed and rebet chance, a bet with `queue_status = EXPIRED` is never the bet
returned by `select()`" is false on the code: `processable_bet` never consults
`queue_status`, so an EXPIRED bet whose opening timestamp still lies inside
the time windows is selected. -/
theorem c2_expired_bet_selected_counterexample :
    select ⟨2, 0, 0, 0⟩ 0 0 [] [⟨"m", 100, 5, 0, [], 0, 0, 0, 0, QueueStatus.EXPIRED⟩] =
      some 0 ∧
    (⟨"m", 100, 5, 0, [], 0, 0, 0, 0, QueueStatus.EXPIRED⟩ : Bet).queue_status =
      QueueStatus.EXPIRED := by
  constructor
  · decide
  · rfl

/-- C2 (amended): `select()` does not consult `queue_status` at all; what does
hold is that every selected bet lies strictly inside the safe voting range, so
a bet already past the expiry boundary `openingTimestamp - opening_margin ≤ now`
(the condition under which bets get marked EXPIRED) is never selected whenever
`safe_voting_range ≥ 0`. -/
theorem c2_selected_bet_within_safe_range (p : SamplingParams) (now : Int)
    (draw : Rat) (cache : LiquidityCache) (bets : List Bet) (i : Nat)
    (h : select p now draw cache bets = some i) :
    ∃ b, bets.get? i = some b ∧
      now < b.openingTimestamp - p.opening_margin - p.safe_voting_range ∧
      (0 ≤ p.safe_voting_range → ¬ (b.openingTimestamp - p.opening_margin ≤ now)) := by
  simp only [select] at h
  rcases sample_some_spec p now (compute_should_rebet bets draw p.rebet_chance)
      cache bets h with ⟨b, hget, hmem, _⟩
  have hsafe := processable_bet_safe_range (List.mem_filter.mp hmem).2
  refine ⟨b, hget, hsafe, ?_⟩
  intro hsv hexp
  omega

/-- Witness for C2 (amended) at a concrete registry. -/
theorem c2_selected_bet_within_safe_range_witness :
    ∃ b, [(⟨"m", 100, 5, 0, [], 0, 0, 0, 0, QueueStatus.TO_PROCESS⟩ : Bet)].get? 0 = some b ∧
      (0 : Int) < b.openingTimestamp - (⟨2, 0, 0, 0⟩ : SamplingParams).opening_margin -
        (⟨2, 0, 0, 0⟩ : SamplingParams).safe_voting_range ∧
      (0 ≤ (⟨2, 0, 0, 0⟩ : SamplingParams).safe_voting_range →
        ¬ (b.openingTimestamp - (⟨2, 0, 0, 0⟩ : SamplingParams).opening_margin ≤ 0)) :=
  c2_selected_bet_within_safe_range ⟨2, 0, 0, 0⟩ 0 0 []
    [⟨"m", 100, 5, 0, [], 0, 0, 0, 0, QueueStatus.TO_PROCESS⟩] 0 (by decide)

/-- C6 (counterexample): the claim "whenever at least one eligible bet has
`processed_timestamp = 0`, `select()` picks the maximal eligible never-processed
bet" fails when that maximal bet has zero liquidity: `_sample` then returns
`None` instead of picking it. -/
theorem c6_zero_liquidity_counterexample :
    new_available_bets ⟨2, 0, 0, 0⟩ 0 0 []
        [⟨"nx", 100, 0, 0, [], 0, 0, 0, 0, QueueStatus.TO_PROCESS⟩] =
      [⟨"nx", 100, 0, 0, [], 0, 0, 0, 0, QueueStatus.TO_PROCESS⟩] ∧
    select ⟨2, 0, 0, 0⟩ 0 0 []
        [⟨"nx", 100, 0, 0, [], 0, 0, 0, 0, QueueStatus.TO_PROCESS⟩] = none := by
  constructor
  · decide
  · decide

/-- C6 (amended): whenever at least one eligible bet has
`processed_timestamp = 0`, the sampling logic picks, from all eligible
never-processed bets (not only those at the minimal queue number), the first
bet whose `(scaledLiquidityMeasure, openingTimestamp)` key is maximal, and —
provided that bet's liquidity is non-zero — `select()` returns the index of
its first occurrence in the registry; if the pick has zero liquidity,
`select()` returns none instead. -/
theorem c6_new_bets_picked_by_max_liquidity (p : SamplingParams) (now : Int)
    (draw : Rat) (cache : LiquidityCache) (bets : List Bet)
    (hne : new_available_bets p now draw cache bets ≠ []) :
    ∃ chosen,
      pickFirstMax new_bet_key (new_available_bets p now draw cache bets) = some chosen ∧
      chosen ∈ available_bets p now draw cache bets ∧
      chosen.processed_timestamp = 0 ∧
      (∀ x ∈ new_available_bets p now draw cache bets,
        new_bet_key x ≤ new_bet_key chosen) ∧
      (chosen.scaledLiquidityMeasure ≠ 0 →
        select p now draw cache bets = some (List.indexOf chosen bets) ∧
        bets.get? (List.indexOf chosen bets) = some chosen) := by
  obtain ⟨chosen, hPF⟩ := pickFirstMax_ne_none new_bet_key hne
  have hmemNew := pickFirstMax_mem new_bet_key hPF
  rw [new_available_bets] at hmemNew
  have hmemAvail : chosen ∈ available_bets p now draw cache bets :=
    List.mem_of_mem_filter hmemNew
  have hproc0 : chosen.processed_timestamp = 0 :=
    of_decide_eq_true (List.mem_filter.mp hmemNew).2
  refine ⟨chosen, hPF, hmemAvail, hproc0, pickFirstMax_le new_bet_key hPF, ?_⟩
  intro hliq
  have hPF2 := hPF
  rw [new_available_bets, available_bets] at hPF2
  have hidx := sampled_bet_idx_new_branch bets
    (List.filter (processable_bet p now (compute_should_rebet bets draw p.rebet_chance) cache) bets)
    hPF2
  have hmem2 := hmemAvail
  rw [available_bets] at hmem2
  have hsel := sample_eq_of_choice p now (compute_should_rebet bets draw p.rebet_chance)
    cache bets chosen hidx hmem2 hliq
  refine ⟨hsel, get?_indexOf_of_mem (List.mem_of_mem_filter hmem2)⟩

/-- Witness for C6 (amended): of two eligible never-bet bets with liquidities
10 and 5, the liquidity-10 bet is picked. -/
theorem c6_new_bets_picked_by_max_liquidity_witness :
    select ⟨2, 0, 0, 0⟩ 0 0 []
        [⟨"m5", 100, 5, 0, [], 0, 0, 0, 0, QueueStatus.TO_PROCESS⟩,
         ⟨"m10", 100, 10, 0, [], 0, 0, 0, 0, QueueStatus.TO_PROCESS⟩] = some 1 ∧
    (⟨"m10", 100, 10, 0, [], 0, 0, 0, 0, QueueStatus.TO_PROCESS⟩ : Bet).scaledLiquidityMeasure
      = 10 := by
  obtain ⟨chosen, hPF, _, _, _, hsel⟩ :=
    c6_new_bets_picked_by_max_liquidity ⟨2, 0, 0, 0⟩ 0 0 []
      [⟨"m5", 100, 5, 0, [], 0, 0, 0, 0, QueueStatus.TO_PROCESS⟩,
       ⟨"m10", 100, 10, 0, [], 0, 0, 0, 0, QueueStatus.TO_PROCESS⟩] (by decide)
  have hconc : pickFirstMax new_bet_key
      (new_available_bets ⟨2, 0, 0, 0⟩ 0 0 []
        [⟨"m5", 100, 5, 0, [], 0, 0, 0, 0, QueueStatus.TO_PROCESS⟩,
         ⟨"m10", 100, 10, 0, [], 0, 0, 0, 0, QueueStatus.TO_PROCESS⟩]) =
      some ⟨"m10", 100, 10, 0, [], 0, 0, 0, 0, QueueStatus.TO_PROCESS⟩ := by decide
  rw [hconc] at hPF
  have hch := Option.some.inj hPF
  rw [← hch] at hsel
  rcases hsel (by decide) with ⟨hs, _⟩
  have hidx : List.indexOf
      (⟨"m10", 100, 10, 0, [], 0, 0, 0, 0, QueueStatus.TO_PROCESS⟩ : Bet)
      [⟨"m5", 100, 5, 0, [], 0, 0, 0, 0, QueueStatus.TO_PROCESS⟩,
       ⟨"m10", 100, 10, 0, [], 0, 0, 0, 0, QueueStatus.TO_PROCESS⟩] = 1 := by decide
  rw [hidx] at hs
  exact ⟨hs, rfl⟩

/-- C7 (counterexample): the claim "when no eligible bet is never-processed,
`select()` picks the maximal priority bet under the composite key" fails when
that maximal bet has zero liquidity: `_sample` then returns `None` instead of
picking it. -/
theorem c7_zero_liquidity_counterexample :
    new_available_bets ⟨2, 0, 0, 0⟩ 0 0 []
        [⟨"rx", 100, 0, 0, [], 0, 5, 0, 0, QueueStatus.TO_PROCESS⟩] = [] ∧
    available_bets ⟨2, 0, 0, 0⟩ 0 0 []
        [⟨"rx", 100, 0, 0, [], 0, 5, 0, 0, QueueStatus.TO_PROCESS⟩] ≠ [] ∧
    select ⟨2, 0, 0, 0⟩ 0 0 []
        [⟨"rx", 100, 0, 0, [], 0, 5, 0, 0, QueueStatus.TO_PROCESS⟩] = none := by
  refine ⟨by decide, by decide, by decide⟩

/-- C7 (amended): when no eligible bet has `processed_timestamp = 0`, the
sampling logic picks, from the eligible bets at the minimal queue number, the
first bet whose `(invested_amount, -processed_timestamp,
scaledLiquidityMeasure, openingTimestamp)` key is maximal (highest invested
amount, then earliest processing time, then highest liquidity, then latest
opening), and — provided that bet's liquidity is non-zero — `select()` returns
the index of its first occurrence in the registry; a zero-liquidity pick makes
`select()` return none instead. -/
theorem c7_retry_bets_picked_by_composite_key (p : SamplingParams) (now : Int)
    (draw : Rat) (cache : LiquidityCache) (bets : List Bet)
    (hnew : new_available_bets p now draw cache bets = [])
    (hav : available_bets p now draw cache bets ≠ []) :
    ∃ chosen,
      pickFirstMax retry_bet_key (priority_available_bets p now draw cache bets) =
        some chosen ∧
      chosen ∈ priority_available_bets p now draw cache bets ∧
      (∀ x ∈ priority_available_bets p now draw cache bets,
        retry_bet_key x ≤ retry_bet_key chosen) ∧
      (chosen.scaledLiquidityMeasure ≠ 0 →
        select p now draw cache bets = some (List.indexOf chosen bets) ∧
        bets.get? (List.indexOf chosen bets) = some chosen) := by
  have hpne : priority_available_bets p now draw cache bets ≠ [] := by
    rw [priority_available_bets]
    exact priority_bets_ne_nil hav
  obtain ⟨chosen, hPF⟩ := pickFirstMax_ne_none retry_bet_key hpne
  have hmemP := pickFirstMax_mem retry_bet_key hPF
  refine ⟨chosen, hPF, hmemP, pickFirstMax_le retry_bet_key hPF, ?_⟩
  intro hliq
  have hmemAvail : chosen ∈ available_bets p now draw cache bets := by
    rw [priority_available_bets] at hmemP
    exact List.mem_of_mem_filter hmemP
  have hnew2 := hnew
  rw [new_available_bets, available_bets] at hnew2
  have hPF2 := hPF
  rw [priority_available_bets, available_bets] at hPF2
  have hidx := sampled_bet_idx_retry_branch bets
    (List.filter (processable_bet p now (compute_should_rebet bets draw p.rebet_chance) cache) bets)
    hnew2 hPF2
  have hmem2 := hmemAvail
  rw [available_bets] at hmem2
  have hsel := sample_eq_of_choice p now (compute_should_rebet bets draw p.rebet_chance)
    cache bets chosen hidx hmem2 hliq
  exact ⟨hsel, get?_indexOf_of_mem (List.mem_of_mem_filter hmem2)⟩

/-- Witness for C7 (amended): of two eligible previously-bet bets with equal
invested amount, the one with the smaller `processed_timestamp` is picked. -/
theorem c7_retry_bets_picked_by_composite_key_witness :
    select ⟨30, 0, 0, 1⟩ 1000000 0 []
        [⟨"r2", 1000100, 7, 0, [], 0, 200, 1, 50, QueueStatus.TO_PROCESS⟩,
         ⟨"r1", 1000100, 7, 0, [], 0, 100, 1, 50, QueueStatus.TO_PROCESS⟩] = some 1 ∧
    (⟨"r1", 1000100, 7, 0, [], 0, 100, 1, 50, QueueStatus.TO_PROCESS⟩ : Bet).invested_amount =
      (⟨"r2", 1000100, 7, 0, [], 0, 200, 1, 50, QueueStatus.TO_PROCESS⟩ : Bet).invested_amount ∧
    (⟨"r1", 1000100, 7, 0, [], 0, 100, 1, 50, QueueStatus.TO_PROCESS⟩ : Bet).processed_timestamp <
      (⟨"r2", 1000100, 7, 0, [], 0, 200, 1, 50, QueueStatus.TO_PROCESS⟩ : Bet).processed_timestamp := by
  obtain ⟨chosen, hPF, _, _, hsel⟩ :=
    c7_retry_bets_picked_by_composite_key ⟨30, 0, 0, 1⟩ 1000000 0 []
      [⟨"r2", 1000100, 7, 0, [], 0, 200, 1, 50, QueueStatus.TO_PROCESS⟩,
       ⟨"r1", 1000100, 7, 0, [], 0, 100, 1, 50, QueueStatus.TO_PROCESS⟩]
      (by decide) (by decide)
  have hconc : pickFirstMax retry_bet_key
      (priority_available_bets ⟨30, 0, 0, 1⟩ 1000000 0 []
        [⟨"r2", 1000100, 7, 0, [], 0, 200, 1, 50, QueueStatus.TO_PROCESS⟩,
         ⟨"r1", 1000100, 7, 0, [], 0, 100, 1, 50, QueueStatus.TO_PROCESS⟩]) =
      some ⟨"r1", 1000100, 7, 0, [], 0, 100, 1, 50, QueueStatus.TO_PROCESS⟩ := by decide
  rw [hconc] at hPF
  have hch := Option.some.inj hPF
  rw [← hch] at hsel
  rcases hsel (by decide) with ⟨hs, _⟩
  have hidx : List.indexOf
      (⟨"r1", 1000100, 7, 0, [], 0, 100, 1, 50, QueueStatus.TO_PROCESS⟩ : Bet)
      [⟨"r2", 1000100, 7, 0, [], 0, 200, 1, 50, QueueStatus.TO_PROCESS⟩,
       ⟨"r1", 1000100, 7, 0, [], 0, 100, 1, 50, QueueStatus.TO_PROCESS⟩] = 1 := by decide
  rw [hidx] at hs
  exact ⟨hs, rfl, by decide⟩

/-- The events of `decision_maker_abci/rounds.py` (`class Event(Enum)`). -/
inductive Event where
  | DONE
  | NONE
  | NO_MAJORITY
  | ROUND_TIMEOUT
  | UNPROFITABLE
  | FETCH_ERROR
  | TIE
  | MECH_RESPONSE_ERROR
  | INSUFFICIENT_BALANCE
  | SLOTS_UNSUPPORTED_ERROR
  | NO_REDEEMING
  | REDEEM_ROUND_TIMEOUT
  | MOCK_TX
  | MOCK_MECH_REQUEST
  | BLACKLIST
  | NO_OP
  | CALC_BUY_AMOUNT_FAILED
  | BENCHMARKING_ENABLED
  | BENCHMARKING_DISABLED
  | BENCHMARKING_FINISHED
  | NEW_SIMULATED_RESAMPLE
  | NO_SUBSCRIPTION
  | SUBSCRIPTION_ERROR
deriving DecidableEq

/-- The rounds of `DecisionMakerAbciApp`: the transition states and the final
states of `rounds.py`. -/
inductive Round where
  | ClaimRound
  | HandleFailedTxRound
  | RandomnessRound
  | BenchmarkingRandomnessRound
  | SubscriptionRound
  | SamplingRound
  | PredictionRound
  | BetPlacementRound
  | RedeemRound
  | BlacklistingRound
  | CheckBenchmarkingModeRound
  | BenchmarkingDoneRound
  | BenchmarkingModeDisabledRound
  | FinishedDecisionMakerRound
  | FinishedSubscriptionRound
  | FinishedWithoutDecisionRound
  | FinishedWithoutRedeemingRound
  | ImpossibleRound
  | RefillRequiredRound
deriving DecidableEq

/-- `DecisionMakerAbciApp.transition_function`, transcribed entry by entry;
`none` for a `(round, event)` pair the table does not list. -/
def transition_function (r : Round) (e : Event) : Option Round :=
  match r, e with
  | Round.ClaimRound, Event.DONE => some Round.SamplingRound
  | Round.ClaimRound, Event.NO_MAJORITY => some Round.ClaimRound
  | Round.ClaimRound, Event.ROUND_TIMEOUT => some Round.ClaimRound
  | Round.ClaimRound, Event.SUBSCRIPTION_ERROR => some Round.ClaimRound
  | Round.HandleFailedTxRound, Event.NO_OP => some Round.RedeemRound
  | Round.HandleFailedTxRound, Event.BLACKLIST => some Round.BlacklistingRound
  | Round.HandleFailedTxRound, Event.NO_MAJORITY => some Round.HandleFailedTxRound
  | Round.RandomnessRound, Event.DONE => some Round.SamplingRound
  | Round.RandomnessRound, Event.ROUND_TIMEOUT => some Round.RandomnessRound
  | Round.RandomnessRound, Event.NO_MAJORITY => some Round.RandomnessRound
  | Round.RandomnessRound, Event.NONE => some Round.ImpossibleRound
  | Round.BenchmarkingRandomnessRound, Event.DONE => some Round.SamplingRound
  | Round.BenchmarkingRandomnessRound, Event.ROUND_TIMEOUT =>
      some Round.BenchmarkingRandomnessRound
  | Round.BenchmarkingRandomnessRound, Event.NO_MAJORITY =>
      some Round.BenchmarkingRandomnessRound
  | Round.BenchmarkingRandomnessRound, Event.NONE => some Round.ImpossibleRound
  | Round.SubscriptionRound, Event.DONE => some Round.FinishedSubscriptionRound
  | Round.SubscriptionRound, Event.NO_SUBSCRIPTION => some Round.SamplingRound
  | Round.SubscriptionRound, Event.SUBSCRIPTION_ERROR => some Round.SubscriptionRound
  | Round.SubscriptionRound, Event.NO_MAJORITY => some Round.SubscriptionRound
  | Round.SubscriptionRound, Event.ROUND_TIMEOUT => some Round.SubscriptionRound
  | Round.SubscriptionRound, Event.NONE => some Round.SubscriptionRound
  | Round.SubscriptionRound, Event.MOCK_TX => some Round.SamplingRound
  | Round.SamplingRound, Event.DONE => some Round.SubscriptionRound
  | Round.SamplingRound, Event.BENCHMARKING_ENABLED => some Round.PredictionRound
  | Round.SamplingRound, Event.NONE => some Round.FinishedWithoutDecisionRound
  | Round.SamplingRound, Event.FETCH_ERROR => some Round.ImpossibleRound
  | Round.SamplingRound, Event.NO_MAJORITY => some Round.SamplingRound
  | Round.SamplingRound, Event.ROUND_TIMEOUT => some Round.SamplingRound
  | Round.SamplingRound, Event.BENCHMARKING_FINISHED => some Round.BenchmarkingDoneRound
  | Round.SamplingRound, Event.NEW_SIMULATED_RESAMPLE => some Round.SamplingRound
  | Round.PredictionRound, Event.DONE => some Round.BetPlacementRound
  | Round.PredictionRound, Event.UNPROFITABLE => some Round.BlacklistingRound
  | Round.PredictionRound, Event.ROUND_TIMEOUT => some Round.PredictionRound
  | Round.PredictionRound, Event.NO_MAJORITY => some Round.PredictionRound
  | Round.BetPlacementRound, Event.DONE => some Round.FinishedDecisionMakerRound
  | Round.BetPlacementRound, Event.INSUFFICIENT_BALANCE => some Round.RefillRequiredRound
  | Round.BetPlacementRound, Event.NO_MAJORITY => some Round.BetPlacementRound
  | Round.BetPlacementRound, Event.ROUND_TIMEOUT => some Round.BetPlacementRound
  | Round.BetPlacementRound, Event.NONE => some Round.ImpossibleRound
  | Round.BetPlacementRound, Event.MOCK_TX => some Round.RedeemRound
  | Round.BetPlacementRound, Event.CALC_BUY_AMOUNT_FAILED => some Round.HandleFailedTxRound
  | Round.RedeemRound, Event.DONE => some Round.FinishedDecisionMakerRound
  | Round.RedeemRound, Event.NO_REDEEMING => some Round.FinishedWithoutRedeemingRound
  | Round.RedeemRound, Event.REDEEM_ROUND_TIMEOUT => some Round.FinishedWithoutRedeemingRound
  | Round.RedeemRound, Event.NO_MAJORITY => some Round.RedeemRound
  | Round.RedeemRound, Event.NONE => some Round.ImpossibleRound
  | Round.RedeemRound, Event.MOCK_TX => some Round.SamplingRound
  | Round.BlacklistingRound, Event.DONE => some Round.FinishedWithoutDecisionRound
  | Round.BlacklistingRound, Event.NO_MAJORITY => some Round.BlacklistingRound
  | Round.BlacklistingRound, Event.ROUND_TIMEOUT => some Round.BlacklistingRound
  | Round.BlacklistingRound, Event.NONE => some Round.ImpossibleRound
  | Round.BlacklistingRound, Event.FETCH_ERROR => some Round.ImpossibleRound
  | Round.BlacklistingRound, Event.MOCK_TX => some Round.FinishedWithoutDecisionRound
  | Round.CheckBenchmarkingModeRound, Event.BENCHMARKING_ENABLED =>
      some Round.BenchmarkingRandomnessRound
  | Round.CheckBenchmarkingModeRound, Event.BENCHMARKING_DISABLED =>
      some Round.BenchmarkingModeDisabledRound
  | Round.CheckBenchmarkingModeRound, Event.SUBSCRIPTION_ERROR => some Round.ImpossibleRound
  | Round.CheckBenchmarkingModeRound, Event.NO_MAJORITY =>
      some Round.CheckBenchmarkingModeRound
  | Round.CheckBenchmarkingModeRound, Event.ROUND_TIMEOUT =>
      some Round.CheckBenchmarkingModeRound
  | Round.CheckBenchmarkingModeRound, Event.NONE => some Round.ImpossibleRound
  | Round.CheckBenchmarkingModeRound, Event.DONE => some Round.ImpossibleRound
  | _, _ => none

/-- `DecisionMakerAbciApp.event_to_timeout`: the configured timeout durations
in seconds (`30.0` and `60.0` in the source, both integral). -/
def event_to_timeout (e : Event) : Option Int :=
  match e with
  | Event.ROUND_TIMEOUT => some 30
  | Event.REDEEM_ROUND_TIMEOUT => some 60
  | _ => none

/-- C3 (counterexample): the claim "every timeout event maps its round back to
itself" is false: the only `REDEEM_ROUND_TIMEOUT` entry, on `RedeemRound`,
transitions to `FinishedWithoutRedeemingRound`, not back to `RedeemRound`. -/
theorem c3_redeem_timeout_not_self_loop :
    transition_function Round.RedeemRound Event.REDEEM_ROUND_TIMEOUT =
      some Round.FinishedWithoutRedeemingRound ∧
    Round.FinishedWithoutRedeemingRound ≠ Round.RedeemRound ∧
    event_to_timeout Event.REDEEM_ROUND_TIMEOUT = some 60 := by
  refine ⟨rfl, by decide, rfl⟩

/-- C3 (amended): every `(round, ROUND_TIMEOUT)` entry of the transition table
is a self-loop (with the 30-second timeout), but the `REDEEM_ROUND_TIMEOUT`
event (60 seconds) maps `RedeemRound` to `FinishedWithoutRedeemingRound`
rather than back to itself. -/
theorem c3_round_timeout_self_loops :
    (∀ r r' : Round, transition_function r Event.ROUND_TIMEOUT = some r' → r' = r) ∧
    transition_function Round.RedeemRound Event.REDEEM_ROUND_TIMEOUT =
      some Round.FinishedWithoutRedeemingRound ∧
    event_to_timeout Event.ROUND_TIMEOUT = some 30 ∧
    event_to_timeout Event.REDEEM_ROUND_TIMEOUT = some 60 := by
  refine ⟨?_, rfl, rfl, rfl⟩
  intro r r' h
  cases r <;>
    first
      | exact (Option.some.inj h).symm
      | exact Option.noConfusion h

/-- Witness for C3 (amended): the `ClaimRound` timeout entry is a self-loop. -/
theorem c3_round_timeout_self_loops_witness :
    ∃ r', transition_function Round.ClaimRound Event.ROUND_TIMEOUT = some r' ∧
      r' = Round.ClaimRound :=
  ⟨Round.ClaimRound, rfl,
    c3_round_timeout_self_loops.1 Round.ClaimRound Round.ClaimRound rfl⟩

/-- `UpdateBetsBehaviour._bet_freshness_check_and_update`: if all bets that
are not EXPIRED have status FRESH, promote every non-EXPIRED bet to
TO_PROCESS; otherwise leave the list unchanged. -/
def bet_freshness_check_and_update (bets : List Bet) : List Bet :=
  let all_bets_fresh :=
    List.all (List.filter (fun b => decide (b.queue_status ≠ QueueStatus.EXPIRED)) bets)
      (fun b => decide (b.queue_status = QueueStatus.FRESH))
  if all_bets_fresh then
    List.map
      (fun b =>
        if b.queue_status ≠ QueueStatus.EXPIRED then
          { b with queue_status := QueueStatus.TO_PROCESS }
        else b)
      bets
  else bets

/-- C9 (counterexample): the claim "if at least one non-expired bet still has
queue_status = FRESH, no bet's queue_status is changed" is false: the code
promotes exactly when every non-expired bet is FRESH, so a registry holding
one FRESH bet is changed to TO_PROCESS even though a FRESH bet remains. -/
theorem c9_fresh_bet_promoted_counterexample :
    (⟨"f", 100, 1, 0, [], 0, 0, 0, 0, QueueStatus.FRESH⟩ : Bet).queue_status =
      QueueStatus.FRESH ∧
    List.map (fun b => b.queue_status)
        (bet_freshness_check_and_update
          [⟨"f", 100, 1, 0, [], 0, 0, 0, 0, QueueStatus.FRESH⟩]) =
      [QueueStatus.TO_PROCESS] := by
  exact ⟨rfl, by decide⟩

/-- C9 (amended): the freshness check promotes all non-expired bets to
TO_PROCESS exactly when every non-expired bet is FRESH; a single non-expired
bet that is not FRESH (i.e. already TO_PROCESS) blocks the promotion and
leaves the registry unchanged. -/
theorem c9_promotion_iff_all_non_expired_fresh (bets : List Bet) :
    ((∀ b ∈ bets, b.queue_status ≠ QueueStatus.EXPIRED →
        b.queue_status = QueueStatus.FRESH) →
      bet_freshness_check_and_update bets =
        List.map
          (fun b =>
            if b.queue_status ≠ QueueStatus.EXPIRED then
              { b with queue_status := QueueStatus.TO_PROCESS }
            else b)
          bets) ∧
    ((∃ b ∈ bets, b.queue_status ≠ QueueStatus.EXPIRED ∧
        b.queue_status ≠ QueueStatus.FRESH) →
      bet_freshness_check_and_update bets = bets) := by
  constructor
  · intro h
    have hall : List.all
        (List.filter (fun b => decide (b.queue_status ≠ QueueStatus.EXPIRED)) bets)
        (fun b => decide (b.queue_status = QueueStatus.FRESH)) = true := by
      rw [List.all_eq_true]
      intro b hb
      rcases List.mem_filter.mp hb with ⟨hmem, hne⟩
      exact decide_eq_true (h b hmem (of_decide_eq_true hne))
    simp only [bet_freshness_check_and_update, hall, if_true]
  · intro h
    rcases h with ⟨b, hmem, hne, hnf⟩
    have hall : List.all
        (List.filter (fun b => decide (b.queue_status ≠ QueueStatus.EXPIRED)) bets)
        (fun b => decide (b.queue_status = QueueStatus.FRESH)) = false := by
      rcases hcond : List.all
          (List.filter (fun b => decide (b.queue_status ≠ QueueStatus.EXPIRED)) bets)
          (fun b => decide (b.queue_status = QueueStatus.FRESH)) with _ | _
      · exact hcond
      · have := List.all_eq_true.mp hcond b
          (List.mem_filter.mpr ⟨hmem, decide_eq_true hne⟩)
        exact absurd (of_decide_eq_true this) hnf
    simp only [bet_freshness_check_and_update, hall, Bool.false_eq_true, if_false]

/-- Witness for C9 (amended): a FRESH bet next to an EXPIRED one is promoted
(the EXPIRED one is untouched). -/
theorem c9_promotion_iff_all_non_expired_fresh_witness :
    bet_freshness_check_and_update
        [⟨"f", 100, 1, 0, [], 0, 0, 0, 0, QueueStatus.FRESH⟩,
         ⟨"e", 50, 1, 0, [], 0, 0, 0, 0, QueueStatus.EXPIRED⟩] =
      List.map
        (fun b =>
          if b.queue_status ≠ QueueStatus.EXPIRED then
            { b with queue_status := QueueStatus.TO_PROCESS }
          else b)
        [⟨"f", 100, 1, 0, [], 0, 0, 0, 0, QueueStatus.FRESH⟩,
         ⟨"e", 50, 1, 0, [], 0, 0, 0, 0, QueueStatus.EXPIRED⟩] :=
  (c9_promotion_iff_all_non_expired_fresh
      [⟨"f", 100, 1, 0, [], 0, 0, 0, 0, QueueStatus.FRESH⟩,
       ⟨"e", 50, 1, 0, [], 0, 0, 0, 0, QueueStatus.EXPIRED⟩]).1 (by decide)

/-- Modelled from the spec: the market-data fetch "reports a status
(success / partial / failure)" (§6).  The enumeration `FetchStatus` lives in
`market_manager_abci/graph_tooling/requests.py`, which is not among the
sources; `_update_bets` only ever compares the final status against
`SUCCESS`. -/
inductive FetchStatus where
  | SUCCESS
  | PARTIAL
  | FAIL
deriving DecidableEq

/-- A raw bet record returned by a subgraph fetch: the market-facing fields
only (§6). -/
structure RawBet where
  id : String
  openingTimestamp : Int
  scaledLiquidityMeasure : Rat
  fee : Rat
  tokenAmounts : List Int
deriving DecidableEq

/-- Modelled from the spec: `Bet(**raw_bet, market=…)` builds a bet with the
agent-local bookkeeping defaulted (`queue_no = 0`, `processed_timestamp = 0`,
`n_bets = 0`, `invested_amount = 0`, `queue_status = FRESH`, §4.1). -/
def bet_of_raw (r : RawBet) : Bet :=
  ⟨r.id, r.openingTimestamp, r.scaledLiquidityMeasure, r.fee, r.tokenAmounts,
    0, 0, 0, 0, QueueStatus.FRESH⟩

/-- Modelled from the spec: `Bet.update_market_info` updates "only its
market-facing fields (liquidity, pool balances, opening time, fee) in place,
preserving local bookkeeping" (§4.1; `bets.py` is not among the sources). -/
def update_market_info (b incoming : Bet) : Bet :=
  { b with
    openingTimestamp := incoming.openingTimestamp
    scaledLiquidityMeasure := incoming.scaledLiquidityMeasure
    fee := incoming.fee
    tokenAmounts := incoming.tokenAmounts }

/-- One iteration of the loop in `UpdateBetsBehaviour._process_chunk`:
`get_bet_idx` finds the first tracked bet with the incoming id; a hit is
updated in place via `update_market_info`, a miss is appended. -/
def process_bet_record : List Bet → Bet → List Bet
  | [], incoming => [incoming]
  | b :: rest, incoming =>
    if b.id = incoming.id then update_market_info b incoming :: rest
    else b :: process_bet_record rest incoming

/-- `UpdateBetsBehaviour._process_chunk`: a `None` chunk is skipped, the
records of a fetched chunk are merged one by one. -/
def process_chunk (bets : List Bet) (chunk : Option (List RawBet)) : List Bet :=
  match chunk with
  | none => bets
  | some raws => List.foldl (fun acc r => process_bet_record acc (bet_of_raw r)) bets raws

/-- `UpdateBetsBehaviour._update_bets`: merge every fetched chunk into the
registry, then clear the registry whenever the final fetch status is not
`SUCCESS`. -/
def update_bets (bets : List Bet) (chunks : List (Option (List RawBet)))
    (status : FetchStatus) : List Bet :=
  let merged := List.foldl process_chunk bets chunks
  if status ≠ FetchStatus.SUCCESS then [] else merged

/-- C4 (counterexample): the claim "the registry is cleared (reset to the
empty list) exactly when fetching failed entirely, so on a merely
partially-failed fetch the registry is not cleared" is false: `_update_bets`
clears the registry whenever the final status differs from `SUCCESS`, hence
also on a partial failure. -/
theorem c4_partial_fetch_clears_counterexample :
    update_bets [⟨"t", 100, 1, 0, [], 0, 0, 0, 0, QueueStatus.FRESH⟩]
        [some [⟨"u", 200, 2, 0, []⟩]] FetchStatus.PARTIAL = [] ∧
    FetchStatus.PARTIAL ≠ FetchStatus.FAIL ∧
    update_bets [⟨"t", 100, 1, 0, [], 0, 0, 0, 0, QueueStatus.FRESH⟩]
        [some [⟨"u", 200, 2, 0, []⟩]] FetchStatus.SUCCESS ≠ [] := by
  refine ⟨by decide, by decide, by decide⟩

/-- C4 (amended): after the bet-update step the registry is cleared exactly
when the final fetch status is not SUCCESS (hence on full *and* partial
failures); on SUCCESS the fetched chunks are merged: a record whose id is
already tracked updates the first such bet's market-facing fields in place
(preserving all bookkeeping), an unseen id is appended as a fresh bet. -/
theorem c4_update_bets_clear_and_merge (bets : List Bet)
    (chunks : List (Option (List RawBet))) (status : FetchStatus) :
    (status ≠ FetchStatus.SUCCESS → update_bets bets chunks status = []) ∧
    (status = FetchStatus.SUCCESS →
      update_bets bets chunks status = List.foldl process_chunk bets chunks) ∧
    (∀ (acc : List Bet) (incoming : Bet), (∀ b ∈ acc, b.id ≠ incoming.id) →
      process_bet_record acc incoming = acc ++ [incoming]) ∧
    (∀ (b : Bet) (rest : List Bet) (incoming : Bet), b.id = incoming.id →
      process_bet_record (b :: rest) incoming = update_market_info b incoming :: rest) ∧
    (∀ (b incoming : Bet),
      (update_market_info b incoming).id = b.id ∧
      (update_market_info b incoming).queue_no = b.queue_no ∧
      (update_market_info b incoming).processed_timestamp = b.processed_timestamp ∧
      (update_market_info b incoming).n_bets = b.n_bets ∧
      (update_market_info b incoming).invested_amount = b.invested_amount ∧
      (update_market_info b incoming).queue_status = b.queue_status ∧
      (update_market_info b incoming).openingTimestamp = incoming.openingTimestamp ∧
      (update_market_info b incoming).scaledLiquidityMeasure =
        incoming.scaledLiquidityMeasure ∧
      (update_market_info b incoming).fee = incoming.fee ∧
      (update_market_info b incoming).tokenAmounts = incoming.tokenAmounts) := by
  refine ⟨?_, ?_, ?_, ?_, ?_⟩
  · intro h
    simp only [update_bets, if_pos h]
  · intro h
    simp only [update_bets, h]
    simp
  · intro acc
    induction acc with
    | nil => intro incoming _; rfl
    | cons b rest ih =>
      intro incoming h
      have hne : ¬ b.id = incoming.id := h b (List.mem_cons_self b rest)
      simp only [process_bet_record, if_neg hne, List.cons_append]
      rw [ih incoming (fun x hx => h x (List.mem_cons_of_mem b hx))]
  · intro b rest incoming h
    simp only [process_bet_record, if_pos h]
  · intro b incoming
    exact ⟨rfl, rfl, rfl, rfl, rfl, rfl, rfl, rfl, rfl, rfl⟩

/-- Witness for C4 (amended): a failed fetch clears a non-empty registry. -/
theorem c4_update_bets_clear_and_merge_witness :
    update_bets [⟨"t", 100, 1, 0, [], 0, 0, 0, 0, QueueStatus.FRESH⟩] []
      FetchStatus.FAIL = [] :=
  (c4_update_bets_clear_and_merge
      [⟨"t", 100, 1, 0, [], 0, 0, 0, 0, QueueStatus.FRESH⟩] [] FetchStatus.FAIL).1
    (by decide)

/-- Modelled from the spec: `ThresholdCollector.submit` collects one payload
per agent and a duplicate submission from the same agent overwrites, not
accumulates (§4.3); the collection lives in the framework round base class,
which is not among the sources.  Python dict semantics: overwriting a key
keeps its original insertion position. -/
def submit (collection : List (String × String)) (agent payload : String) :
    List (String × String) :=
  match collection with
  | [] => [(agent, payload)]
  | (a, v) :: rest =>
    if a = agent then (a, payload) :: rest else (a, v) :: submit rest agent payload

/-- The collection built from a submission sequence, in arrival order. -/
def collect_submissions (subs : List (String × String)) : List (String × String) :=
  List.foldl (fun acc s => submit acc s.1 s.2) [] subs

/-- Add one vote for `v` to an insertion-ordered counts dict. -/
def bump_count (counts : List (String × Nat)) (v : String) : List (String × Nat) :=
  match counts with
  | [] => [(v, 1)]
  | (w, c) :: rest =>
    if w = v then (w, c + 1) :: rest else (w, c) :: bump_count rest v

/-- The per-payload-value vote counts of a collection, keyed in
first-appearance order (Python dict insertion order). -/
def payload_counts (collection : List (String × String)) : List (String × Nat) :=
  List.foldl (fun acc s => bump_count acc s.2) [] collection

/-- Modelled from the spec: `most_voted_payload_with_threshold` restricts the
counts to the payload values voted by at least the quorum threshold of
distinct agents (§4.3); the property lives in the framework round base class,
which is not among the sources.  Iteration order stays insertion order. -/
def payloads_with_threshold (threshold : Nat) (counts : List (String × Nat)) :
    List (String × Nat) :=
  List.filter (fun p => decide (threshold ≤ p.2)) counts

/-- Python `max(d, key=d.get)` over the keys of a counts dict, from
`PredictionRound.end_block`: scan the keys in dict (= insertion) order and
keep the first one whose count is strictly greater than the current best's,
so tied counts are resolved in favour of the earliest-inserted key. -/
def py_max_by_count : List (String × Nat) → Option String
  | [] => none
  | (v, c) :: rest =>
    some (List.foldl (fun best x => if best.2 < x.2 then x else best) (v, c) rest).1

/-- The winner selected by `PredictionRound.end_block` once the threshold is
reached: `max(self.most_voted_payload_with_threshold,
key=self.most_voted_payload_with_threshold.get)`. -/
def prediction_majority_value (threshold : Nat) (subs : List (String × String)) :
    Option String :=
  py_max_by_count (payloads_with_threshold threshold (payload_counts (collect_submissions subs)))

/-- C1: the claim (and the code's own comment, `states/prediction.py` lines
47-49) says a vote-count tie is broken by a fixed lexicographic ordering over
the payload values, independent of arrival order.  The code instead uses
Python `max(dict, key=dict.get)`, which keeps the first maximal key in dict
insertion order: two submission sequences that are permutations of the same
multiset of (agent, payload) submissions, with counts `{A: 2, B: 2}` at
threshold 2, yield different winners, and neither run applies the
lexicographic rule uniformly ("A" < "B" yet the first run returns "B"). -/
theorem c1_tie_break_depends_on_arrival_order :
    List.Perm
      [("a1", "B"), ("a2", "B"), ("a3", "A"), ("a4", "A")]
      [("a3", "A"), ("a4", "A"), ("a1", "B"), ("a2", "B")] ∧
    prediction_majority_value 2
      [("a1", "B"), ("a2", "B"), ("a3", "A"), ("a4", "A")] = some "B" ∧
    prediction_majority_value 2
      [("a3", "A"), ("a4", "A"), ("a1", "B"), ("a2", "B")] = some "A" ∧
    ("A" : String).data < ("B" : String).data := by
  refine ⟨by decide, by decide, by decide, ?_⟩
  exact List.Lex.rel (by decide)

/-- Values crossing a Python dataclass constructor call; for positional
construction only their number matters. -/
inductive PyValue where
  | none
  | int (n : Int)
  | str (s : String)
deriving DecidableEq

/-- Positional construction of a frozen dataclass: the positional arguments
must match the declared fields one to one, otherwise the call raises
`TypeError` (modelled as `none`). -/
def dataclass_init (fields : List String) (args : List PyValue) :
    Option (List (String × PyValue)) :=
  if args.length = fields.length then some (List.zip fields args) else none

/-- Modelled from the spec: the framework base class `BaseTxPayload` (not
among the sources) contributes the sending agent's address as the payload's
positional field (§4.3: one payload value per agent). -/
def base_tx_payload_fields : List String := ["sender"]

/-- The declared fields of `SamplingPayload` (`payloads.py` lines 76-79): the
base sender plus a single `index: Optional[int]`.  No `bets_hash` field is
declared. -/
def sampling_payload_fields : List String := base_tx_payload_fields ++ ["index"]

/-- The construction performed at `behaviours/sampling.py` line 177:
`SamplingPayload(self.context.agent_address, bets_hash, idx)`. -/
def sampling_async_act_payload (sender bets_hash idx : PyValue) :
    Option (List (String × PyValue)) :=
  dataclass_init sampling_payload_fields [sender, bets_hash, idx]

/-- C5: the claim says the Sampling payload carries both the bets hash and the
sampled index and that constructing it with (sender, hash, index) succeeds.
On this code the construction always fails: `SamplingPayload` declares only
the `index` field (no `bets_hash`), so the three-positional-argument call in
`async_act` does not fit the two declared fields. -/
theorem c5_sampling_payload_has_no_hash_field :
    (∀ sender bets_hash idx : PyValue,
      sampling_async_act_payload sender bets_hash idx = none) ∧
    "bets_hash" ∉ sampling_payload_fields ∧
    sampling_payload_fields = ["sender", "index"] := by
  refine ⟨?_, by decide, rfl⟩
  intro sender bets_hash idx
  rfl

/-- The ASCII single-quote character of the regex pattern. -/
def quote_char : Char := Char.ofNat 39

/-- The literal head of the pattern `application_id <quote>`. -/
def app_id_pattern : List Char := "application_id ".toList ++ [quote_char]

/-- The greedy `[^<quote>]*<quote>` tail of the pattern: the characters up to
the next quote, or `none` when no closing quote follows. -/
def take_until_quote : List Char → Option (List Char)
  | [] => none
  | c :: rest =>
    if c = quote_char then some []
    else Option.map (fun cs => c :: cs) (take_until_quote rest)

/-- `re.search(r"application_id <quote>([^<quote>]*)<quote>", question)`:
the captured group of the leftmost occurrence of the pattern, scanning match
start positions left to right. -/
def find_application_id : List Char → Option (List Char)
  | [] => none
  | c :: rest =>
    if app_id_pattern.isPrefixOf (c :: rest) then
      match take_until_quote (List.drop app_id_pattern.length (c :: rest)) with
      | some captured => some captured
      | none => find_application_id rest
    else find_application_id rest

/-- The parse at the top of `SupafundPredictor.run` (lines 264-267). -/
def parse_application_id (q : String) : Option String :=
  Option.map (fun cs => String.mk cs) (find_application_id q.data)

/-- The oracle result dictionary: `prediction`, `confidence`, `reasoning`
(either key may be absent from the LLM's JSON, `dict.get` handles that). -/
structure PredictionResult where
  prediction : Option String
  confidence : Option Rat
  reasoning : String
deriving DecidableEq

/-- The `{"prediction": "ERROR", "confidence": 0.0, "reasoning": str(e)}`
dictionary built by the predictor's exception handlers. -/
def error_prediction (msg : String) : PredictionResult :=
  ⟨some "ERROR", some 0, msg⟩

/-- `SupafundPredictor.run`: the application id is parsed OUTSIDE the
`try` block, so a question without the pattern raises `ValueError` (modelled
as `Except.error`).  The Supabase/LLM pipeline itself is an external
collaborator (spec §1): its outcome — a result dictionary, or an exception
that the `except` clause catches and turns into the ERROR dictionary — is the
input `pipeline`. -/
def supafund_predictor_run (q : String)
    (pipeline : Except String PredictionResult) : Except String PredictionResult :=
  match parse_application_id q with
  | none => Except.error "Could not parse application_id from the market question."
  | some _ =>
    match pipeline with
    | Except.error e => Except.ok (error_prediction e)
    | Except.ok r => Except.ok r

/-- The float literal `0.5` of `PredictionBehaviour.async_act`, as an exact
rational (written as a raw numerator/denominator pair so that kernel
reduction works). -/
def py_half : Rat := ⟨1, 2, by decide, Nat.coprime_one_left 2⟩

/-- The profitability test of `PredictionBehaviour.async_act` lines 55-58:
`prediction_result.get("prediction") == "Yes" and
prediction_result.get("confidence", 0.0) > 0.5`. -/
def prediction_is_profitable (r : PredictionResult) : Bool :=
  decide (r.prediction = some "Yes") && decide (py_half < Option.getD r.confidence 0)

/-- The event the behaviour puts in its `PredictionPayload`. -/
def prediction_event (r : PredictionResult) : Event :=
  if prediction_is_profitable r then Event.DONE else Event.UNPROFITABLE

/-- `PredictionBehaviour.async_act`: run the predictor — an exception
propagates out of the round, the behaviour has no handler — and map the
result to DONE/UNPROFITABLE. -/
def prediction_async_act (q : String)
    (pipeline : Except String PredictionResult) : Except String Event :=
  match supafund_predictor_run q pipeline with
  | Except.error e => Except.error e
  | Except.ok r => Except.ok (prediction_event r)

/-- C8 (counterexample): the claim "for every market question string, the
prediction step never raises out of the round" is false: a question that does
not contain the `application_id <quote>…<quote>` fragment makes
`SupafundPredictor.run` raise `ValueError` before its `try` block, and
`PredictionBehaviour.async_act` has no handler, even when the oracle would
have answered. -/
theorem c8_unparseable_question_raises :
    prediction_async_act "Will this project succeed?"
        (Except.ok ⟨some "Yes", some 1, "r"⟩) =
      Except.error "Could not parse application_id from the market question." := by
  rfl

/-- C8 (amended): for every market question from which an application id can
be parsed, the prediction step never raises: a pipeline exception is caught
and turned into the ERROR result, and every result that is not a "Yes" with
confidence strictly above 0.5 — in particular prediction = "ERROR" or
confidence ≤ 0 — yields the UNPROFITABLE event, which the transition table
routes to the Blacklisting round. -/
theorem c8_parsable_question_never_raises (q : String)
    (pipeline : Except String PredictionResult)
    (h : (parse_application_id q).isSome = true) :
    (∃ ev : Event, prediction_async_act q pipeline = Except.ok ev) ∧
    (∀ e, pipeline = Except.error e →
      prediction_async_act q pipeline = Except.ok Event.UNPROFITABLE) ∧
    (∀ r : PredictionResult, pipeline = Except.ok r →
      ¬ (r.prediction = some "Yes" ∧ py_half < Option.getD r.confidence 0) →
      prediction_async_act q pipeline = Except.ok Event.UNPROFITABLE) ∧
    (∀ r : PredictionResult, pipeline = Except.ok r → r.prediction = some "ERROR" →
      prediction_async_act q pipeline = Except.ok Event.UNPROFITABLE) ∧
    (∀ (r : PredictionResult) (c : Rat), pipeline = Except.ok r →
      r.confidence = some c → c ≤ 0 →
      prediction_async_act q pipeline = Except.ok Event.UNPROFITABLE) ∧
    transition_function Round.PredictionRound Event.UNPROFITABLE =
      some Round.BlacklistingRound := by
  rcases hpq : parse_application_id q with _ | appId
  · rw [hpq] at h
    simp at h
  · have hact : ∀ r : PredictionResult, pipeline = Except.ok r →
        prediction_async_act q pipeline = Except.ok (prediction_event r) := by
      intro r hr
      rw [hr]
      simp only [prediction_async_act, supafund_predictor_run, hpq]
    have hacte : ∀ e, pipeline = Except.error e →
        prediction_async_act q pipeline = Except.ok (prediction_event (error_prediction e)) := by
      intro e he
      rw [he]
      simp only [prediction_async_act, supafund_predictor_run, hpq]
    have hunprof : ∀ r : PredictionResult,
        ¬ (r.prediction = some "Yes" ∧ py_half < Option.getD r.confidence 0) →
        prediction_event r = Event.UNPROFITABLE := by
      intro r hr
      have hb : ¬ prediction_is_profitable r = true := by
        intro ht
        rw [prediction_is_profitable, Bool.and_eq_true, decide_eq_true_eq,
          decide_eq_true_eq] at ht
        exact hr ht
      rw [prediction_event, if_neg hb]
    refine ⟨?_, ?_, ?_, ?_, ?_, rfl⟩
    · cases hp : pipeline with
      | error e => exact ⟨prediction_event (error_prediction e), hp ▸ hacte e hp⟩
      | ok r => exact ⟨prediction_event r, hp ▸ hact r hp⟩
    · intro e he
      rw [hacte e he, hunprof (error_prediction e) ?_]
      intro hcontra
      rcases hcontra with ⟨hy, _⟩
      simp [error_prediction] at hy
    · intro r hr hnp
      rw [hact r hr, hunprof r hnp]
    · intro r hr herr
      rw [hact r hr, hunprof r ?_]
      intro hcontra
      rcases hcontra with ⟨hy, _⟩
      rw [herr] at hy
      simp at hy
    · intro r c hr hc hle
      rw [hact r hr, hunprof r ?_]
      intro hcontra
      rcases hcontra with ⟨_, hgt⟩
      rw [hc] at hgt
      simp only [Option.getD] at hgt
      have h0 : (0 : Rat) < py_half := by decide
      exact absurd hgt (asymm (lt_of_le_of_lt hle h0))

/-- A market question containing the `application_id <quote>abc123<quote>`
fragment, built without quote literals. -/
def demo_question : String :=
  String.mk ("Will the application with application_id ".toList ++ [quote_char] ++
    "abc123".toList ++ [quote_char] ++ " pass?".toList)

/-- Witness for C8 (amended): the ERROR oracle result on a parsable question
yields UNPROFITABLE without raising. -/
theorem c8_parsable_question_never_raises_witness :
    prediction_async_act demo_question
        (Except.ok ⟨some "ERROR", some 0, "oracle failed"⟩) =
      Except.ok Event.UNPROFITABLE ∧
    parse_application_id demo_question = some "abc123" :=
  ⟨((c8_parsable_question_never_raises demo_question
        (Except.ok ⟨some "ERROR", some 0, "oracle failed"⟩) (by decide)).2.2.2.1)
      ⟨some "ERROR", some 0, "oracle failed"⟩ rfl rfl,
    by decide⟩

/-- `REQUIRED_FIELDS` of `supafund_trader.py`, in source listing order (the
source holds them in a `frozenset`, whose iteration order is unspecified; no
claim depends on the order of the missing-fields list). -/
def required_fields : List String :=
  ["bankroll", "win_probability", "confidence", "selected_type_tokens_in_pool",
   "other_tokens_in_pool", "bet_fee", "floor_balance"]

/-- A keyword-argument map for the strategy: field name to a numeric value or
Python `None`.  `kwargs.get(field, None)` conflates an absent key with a key
mapped to `None`, and the missing-fields early return never inspects any
value, so non-numeric values need no separate representation. -/
def Kwargs : Type := List (String × Option Rat)

/-- `kwargs.get(field, None)`. -/
def kwargs_get (kwargs : Kwargs) (f : String) : Option Rat :=
  match List.find? (fun p => decide (p.1 = f)) kwargs with
  | some p => p.2
  | none => none

/-- Python `field in kwargs` (key presence). -/
def kw_has (kwargs : Kwargs) (f : String) : Bool :=
  (List.find? (fun p => decide (p.1 = f)) kwargs).isSome

/-- `check_missing_fields(kwargs)`: the required fields whose value is absent
or `None`. -/
def check_missing_fields (kwargs : Kwargs) : List String :=
  List.filter (fun f => (kwargs_get kwargs f).isNone) required_fields

/-- The f-string
`f"Required kwargs <missing> were not provided for supafund_trader."`
(the exact rendering of the list is immaterial to the claims; the message is
a function of the missing-fields list). -/
def missing_fields_message (missing : List String) : String :=
  "Required kwargs " ++ toString missing ++ " were not provided for supafund_trader."

/-- The result dictionary of `run()`. -/
structure StratResult where
  bet_amount : Int
  p_yes : Rat
  p_no : Rat
  confidence : Rat
  info : List String
  error : List String
deriving DecidableEq

/-- The result dictionary of `get_supafund_prediction()`. -/
structure StratPrediction where
  p_yes : Rat
  p_no : Rat
  confidence : Rat
  info : List String
  error : List String

/-- `0.6` as an exact rational (raw pair, so kernel reduction works). -/
def rat_06 : Rat := ⟨3, 5, by norm_num, by norm_num⟩

/-- `0.4` as an exact rational. -/
def rat_04 : Rat := ⟨2, 5, by norm_num, by norm_num⟩

/-- `0.8` as an exact rational. -/
def rat_08 : Rat := ⟨4, 5, by norm_num, by norm_num⟩

/-- `0.75` as an exact rational. -/
def rat_075 : Rat := ⟨3, 4, by norm_num, by norm_num⟩

/-- `0.01` as an exact rational. -/
def rat_001 : Rat := ⟨1, 100, by norm_num, Nat.coprime_one_left 100⟩

/-- `get_supafund_prediction`: placeholder constants, the kwargs are ignored
(they only feed a `print`). -/
def get_supafund_prediction : StratPrediction :=
  ⟨rat_06, rat_04, rat_08, ["Supafund prediction completed."], []⟩

/-- Python `int()` on a float/rational truncates toward zero. -/
def py_int_trunc (q : Rat) : Int := if 0 ≤ q then q.floor else q.ceil

/-- `run(*_args, **kwargs)` of `supafund_trader.py`: reject missing required
fields with a zeroed result and an error message; otherwise run the
placeholder prediction and the placeholder 1%-of-adjusted-bankroll sizing. -/
def run_strategy (kwargs : Kwargs) : StratResult :=
  let missing := check_missing_fields kwargs
  if 0 < missing.length then
    ⟨0, 0, 0, 0, [], [missing_fields_message missing]⟩
  else
    let pr := get_supafund_prediction
    let info0 := pr.info
    let error0 := pr.error
    if error0 ≠ [] then ⟨0, 0, 0, 0, info0, error0⟩
    else if rat_075 < pr.confidence then
      if kw_has kwargs "bankroll" && kw_has kwargs "floor_balance" then
        let bankroll_adj := Option.getD (kwargs_get kwargs "bankroll") 0 -
          Option.getD (kwargs_get kwargs "floor_balance") 0
        if 0 < bankroll_adj then
          let amt := py_int_trunc (bankroll_adj * rat_001)
          ⟨amt, pr.p_yes, pr.p_no, pr.confidence,
            info0 ++ ["Calculated placeholder bet_amount: " ++ toString amt], error0⟩
        else ⟨0, pr.p_yes, pr.p_no, pr.confidence, info0, error0⟩
      else ⟨0, pr.p_yes, pr.p_no, pr.confidence,
        info0 ++ ["Bankroll not available for placeholder bet sizing."], error0⟩
    else ⟨0, pr.p_yes, pr.p_no, pr.confidence,
      info0 ++ ["Confidence below threshold, placeholder bet_amount is 0."], error0⟩

/-- C10: whenever at least one required field is absent or `None`, `run()`
returns `bet_amount = 0`, `p_yes = 0.0`, `p_no = 0.0`, `confidence = 0.0`
together with a non-empty error list naming the missing fields, without
raising (the embedding is a total function and the early return inspects no
value). -/
theorem c10_missing_fields_zeroed_result (kwargs : Kwargs)
    (h : ∃ f ∈ required_fields, kwargs_get kwargs f = none) :
    check_missing_fields kwargs ≠ [] ∧
    run_strategy kwargs =
      ⟨0, 0, 0, 0, [], [missing_fields_message (check_missing_fields kwargs)]⟩ ∧
    (run_strategy kwargs).error ≠ [] ∧
    (∀ f ∈ required_fields, kwargs_get kwargs f = none →
      f ∈ check_missing_fields kwargs) := by
  rcases h with ⟨f, hf, hnone⟩
  have hmem : f ∈ check_missing_fields kwargs := by
    rw [check_missing_fields]
    refine List.mem_filter.mpr ⟨hf, ?_⟩
    rw [hnone]
    rfl
  have hne : check_missing_fields kwargs ≠ [] := List.ne_nil_of_mem hmem
  have hlen : 0 < (check_missing_fields kwargs).length := List.length_pos.mpr hne
  have hrun : run_strategy kwargs =
      ⟨0, 0, 0, 0, [], [missing_fields_message (check_missing_fields kwargs)]⟩ := by
    simp only [run_strategy]
    rw [if_pos hlen]
  refine ⟨hne, hrun, ?_, ?_⟩
  · rw [hrun]
    simp
  · intro g hg hgn
    rw [check_missing_fields]
    refine List.mem_filter.mpr ⟨hg, ?_⟩
    rw [hgn]
    rfl

/-- Witness for C10: the empty kwargs map misses every required field. -/
theorem c10_missing_fields_zeroed_result_witness :
    run_strategy [] =
      ⟨0, 0, 0, 0, [], [missing_fields_message (check_missing_fields [])]⟩ ∧
    check_missing_fields [] ≠ [] :=
  ⟨(c10_missing_fields_zeroed_result [] ⟨"bankroll", by decide, rfl⟩).2.1,
   (c10_missing_fields_zeroed_result [] ⟨"bankroll", by decide, rfl⟩).1⟩
